import Mathlib

/-
Verification of the dynamic permission evaluation subsystem of the
nestjs-saas-starter-template repository: the condition resolver
(src/auth/services/condition-resolver.service.ts), the CASL ability
compiler (apps/backend/src/auth/modules/permission/casl-ability.service.ts),
the permission guard (apps/backend/src/guards/has-permissions.guard.ts),
the role/permission mutation service with its audit log
(role.service.ts, audit-log.service.ts), and the ownership check.

JavaScript values are embedded as the inductive `Val`, which distinguishes
`undefined` from `null` and additionally models a property whose getter
throws (`getterExn`), the one way plain data traversal can raise in the
original code. Ability evaluation follows @casl/ability's documented
semantics for `createMongoAbility`: the relevant rules are scanned from the
last declared to the first, and the first rule matching the
action/subject/field/conditions of the query decides the outcome
(`true` unless the rule is inverted); no match means `false`.
Effectful service methods are embedded as explicit state transformers over
a `DbState`, with the success or failure of each persistence call supplied
by a `RepoBehavior` oracle.
-/

namespace SaasAcl

/-- A JavaScript value as handled by the condition resolver: `undefined`,
`null`, booleans, numbers, strings, arrays and plain objects, plus a
property whose getter throws when accessed. -/
inductive Val where
  | undefV : Val
  | nullV : Val
  | boolV : Bool → Val
  | numV : Int → Val
  | strV : String → Val
  | arr : List Val → Val
  | obj : List (String × Val) → Val
  | getterExn : String → Val

mutual

/-- Deep structural equality on embedded JS values (the equality used by
the mongo condition matcher on resolved condition leaves). -/
def Val.beq : Val → Val → Bool
  | .undefV, .undefV => true
  | .nullV, .nullV => true
  | .boolV a, .boolV b => a == b
  | .numV a, .numV b => a == b
  | .strV a, .strV b => a == b
  | .arr a, .arr b => Val.beqList a b
  | .obj a, .obj b => Val.beqFields a b
  | _, _ => false

def Val.beqList : List Val → List Val → Bool
  | [], [] => true
  | x :: xs, y :: ys => Val.beq x y && Val.beqList xs ys
  | _, _ => false

def Val.beqFields : List (String × Val) → List (String × Val) → Bool
  | [], [] => true
  | (k, x) :: xs, (l, y) :: ys => k == l && Val.beq x y && Val.beqFields xs ys
  | _, _ => false

end

/-! ## Condition resolver (condition-resolver.service.ts)

`resolveConditions` walks an arbitrarily nested condition object and
replaces every string leaf of the form the regex `^\$\{(.+)\}$` accepts by
the value found by walking the captured dot-separated path on the user
object (an optional leading `user.` segment is stripped). A missing or
null/undefined intermediate yields `undefined` for that leaf. A thrown
exception anywhere in the walk is caught by `resolveConditions`, which then
returns the original conditions unchanged. -/

/-- Whether the first character list is an initial segment of the second
(string operations are carried out on character lists so that every
definition computes inside the kernel). -/
def beginsWith : List Char → List Char → Bool
  | [], _ => true
  | _ :: _, [] => false
  | a :: as, b :: bs => a == b && beginsWith as bs

/-- Whether the first character list is a final segment of the second. -/
def finishesWith (suf s : List Char) : Bool :=
  beginsWith suf.reverse s.reverse

/-- Split a character list on the dot separator, JS `split('.')` style:
the empty list yields one empty part, separators at the ends yield empty
parts. -/
def splitOnDot : List Char → List (List Char)
  | [] => [[]]
  | c :: cs =>
    let rest := splitOnDot cs
    if c == '.' then [] :: rest
    else
      match rest with
      | r :: rs => (c :: r) :: rs
      | [] => [[c]]

/-- Strip leading and trailing whitespace, as `trim()`. -/
def trimChars (cs : List Char) : List Char :=
  ((cs.dropWhile Char.isWhitespace).reverse.dropWhile Char.isWhitespace).reverse

/-- The two-character opener of a template expression. -/
def tmplOpen : List Char := ['$', '\x7b']

/-- The one-character closer of a template expression. -/
def tmplClose : List Char := ['\x7d']

/-- Whether a string matches the template regex as a whole: it must start
with the opener, end with the closer, and enclose at least one character,
none of which may be a line terminator (the regex metacharacter for
"any character" does not cross lines). -/
def isTemplate (s : String) : Bool :=
  beginsWith tmplOpen s.data && finishesWith tmplClose s.data &&
    s.data.length ≥ 4 &&
    !((s.data.drop 2).dropLast.contains '\n') &&
    !((s.data.drop 2).dropLast.contains '\r')

/-- The captured path of a template expression, trimmed as in
`match[1].trim()`. -/
def innerPath (s : String) : String :=
  String.mk (trimChars ((s.data.drop 2).dropLast))

/-- Property access `current[part]` on a JS value: a present plain field is
returned, a present throwing getter raises, an absent field and access on a
primitive give `undefined`. -/
def getProp (v : Val) (k : String) : Except String Val :=
  match v with
  | .obj kvs =>
    match kvs.find? (fun p => p.1 == k) with
    | some (_, .getterExn m) => .error m
    | some (_, w) => .ok w
    | none => .ok .undefV
  | _ => .ok .undefV

/-- The loop of `resolvePath`: before each access the current value is
checked for null/undefined (in which case the whole path resolves to
`undefined`); the final value is returned as is. -/
def walkPathE : List String → Val → Except String Val
  | [], cur => .ok cur
  | p :: rest, cur =>
    match cur with
    | .nullV => .ok .undefV
    | .undefV => .ok .undefV
    | v =>
      match getProp v p with
      | .ok nxt => walkPathE rest nxt
      | .error m => .error m

/-- Strip a leading `user.` segment from a template path. -/
def stripUserSegment (path : String) : String :=
  if beginsWith ['u', 's', 'e', 'r', '.'] path.data then
    String.mk (path.data.drop 5)
  else path

/-- `resolvePath`: normalize the path, split it on dots and walk it on the
user object. -/
def resolvePathE (path : String) (user : Val) : Except String Val :=
  walkPathE ((splitOnDot (stripUserSegment path).data).map String.mk) user

/-- `resolveString`: a non-template string is returned as is; a template is
resolved on the user object. -/
def resolveStringE (s : String) (user : Val) : Except String Val :=
  if isTemplate s then resolvePathE (innerPath s) user else .ok (.strV s)

mutual

/-- `resolveObject`: recursive resolution of a condition tree. Null and
undefined are returned as is, arrays and objects are mapped over (reading
an object entry whose getter throws raises, as `Object.entries` evaluates
getters), strings go through `resolveString`, other primitives are
returned unchanged. -/
def resolveObjectE : Val → Val → Except String Val
  | .nullV, _ => .ok .nullV
  | .undefV, _ => .ok .undefV
  | .arr xs, user =>
    match resolveListE xs user with
    | .ok ys => .ok (.arr ys)
    | .error m => .error m
  | .obj kvs, user =>
    match resolveFieldsE kvs user with
    | .ok rs => .ok (.obj rs)
    | .error m => .error m
  | .strV s, user => resolveStringE s user
  | .boolV b, _ => .ok (.boolV b)
  | .numV n, _ => .ok (.numV n)
  | .getterExn m, _ => .error m

def resolveListE : List Val → Val → Except String (List Val)
  | [], _ => .ok []
  | x :: xs, user =>
    match resolveObjectE x user with
    | .error m => .error m
    | .ok y =>
      match resolveListE xs user with
      | .error m => .error m
      | .ok ys => .ok (y :: ys)

def resolveFieldsE : List (String × Val) → Val → Except String (List (String × Val))
  | [], _ => .ok []
  | (k, v) :: kvs, user =>
    match resolveObjectE v user with
    | .error m => .error m
    | .ok w =>
      match resolveFieldsE kvs user with
      | .error m => .error m
      | .ok ws => .ok ((k, w) :: ws)

end

/-- `resolveConditions`: absent conditions stay absent; otherwise the tree
is resolved, and if resolution throws the ORIGINAL unresolved conditions
are returned instead of propagating the exception. -/
def resolveConditions (conditions : Option Val) (user : Val) : Option Val :=
  match conditions with
  | none => none
  | some c =>
    match resolveObjectE c user with
    | .ok v => some v
    | .error _ => some c

/-! ## Ability compiler (casl-ability.service.ts)

The service stores, per role id, the raw rules read from the database
(action and subject normalized to arrays). `defineAbilityForUser` looks up
the raw rules of the user's role, resolves every rule's conditions against
the user, and hands the resolved rule list to `createMongoAbility`. The
resulting ability is embedded below by `canInstance` (query against a
concrete resource instance) and `canSubjectType` (query against a subject
name), both following @casl/ability's semantics: rules are scanned from
the last declared to the first and the first relevant rule decides. -/

/-- A rule as stored in the role-abilities cache and consumed by
`createMongoAbility`. -/
structure CaslRule where
  action : List String
  subject : List String
  fields : Option (List String)
  conditions : Option Val
  inverted : Bool
  reason : Option String

/-- A concrete resource instance: its detected subject type name and its
attributes. -/
structure ResourceInstance where
  subjectName : String
  attrs : List (String × Val)

/-- Attribute lookup on an instance; an absent attribute reads as
`undefined`. -/
def lookupAttr (attrs : List (String × Val)) (k : String) : Val :=
  match attrs.find? (fun p => p.1 == k) with
  | some p => p.2
  | none => .undefV

/-- The action matches if the rule's action array contains it or contains
the wildcard `manage`. -/
def matchesAction (r : CaslRule) (a : String) : Bool :=
  r.action.contains a || r.action.contains "manage"

/-- The subject matches if the rule's subject array contains the queried
subject name or contains the wildcard `all`. -/
def matchesSubjectName (r : CaslRule) (s : String) : Bool :=
  r.subject.contains s || r.subject.contains "all"

/-- Field matching: a rule without a field list matches every field; with a
field list, a field-less query matches only non-inverted rules, and a field
query requires membership. -/
def matchesFieldQuery (r : CaslRule) (f : Option String) : Bool :=
  match r.fields with
  | none => true
  | some fs =>
    match f with
    | none => !r.inverted
    | some fld => fs.contains fld

/-- A (mongo) condition object is satisfied by an instance when every
key/value pair equals the instance's attribute of that key. -/
def condSatisfied (c : Val) (attrs : List (String × Val)) : Bool :=
  match c with
  | .obj kvs => kvs.all (fun kv => Val.beq (lookupAttr attrs kv.1) kv.2)
  | _ => true

/-- Relevance of a rule for a query against a concrete instance: action,
subject and field must match and the instance must satisfy the rule's
conditions (no conditions match everything). -/
def ruleMatchesInstance (r : CaslRule) (a : String) (res : ResourceInstance)
    (f : Option String) : Bool :=
  matchesAction r a && matchesSubjectName r res.subjectName &&
    matchesFieldQuery r f &&
    (match r.conditions with
     | none => true
     | some c => condSatisfied c res.attrs)

/-- Relevance of a rule for a query against a bare subject type: a rule
with conditions is relevant for a type-level query only when it is not
inverted (a conditional forbid does not forbid the whole type). -/
def ruleMatchesSubjectType (r : CaslRule) (a : String) (s : String)
    (f : Option String) : Bool :=
  matchesAction r a && matchesSubjectName r s && matchesFieldQuery r f &&
    (match r.conditions with
     | none => true
     | some _ => !r.inverted)

/-- `can(action, resourceInstance, field?)`: the last declared relevant
rule decides; no relevant rule means `false`. -/
def canInstance (rules : List CaslRule) (a : String) (res : ResourceInstance)
    (f : Option String) : Bool :=
  match rules.reverse.find? (fun r => ruleMatchesInstance r a res f) with
  | some r => !r.inverted
  | none => false

/-- `can(action, subjectName, field?)`: the last declared relevant rule
decides; no relevant rule means `false`. -/
def canSubjectType (rules : List CaslRule) (a : String) (s : String)
    (f : Option String) : Bool :=
  match rules.reverse.find? (fun r => ruleMatchesSubjectType r a s f) with
  | some r => !r.inverted
  | none => false

/-- Reference to the user's eagerly loaded role. -/
structure RoleRef where
  id : Nat

/-- The acting account: identifier, optional role, and its JS object view
used as the resolution context for condition templates. -/
structure Account where
  id : Nat
  role : Option RoleRef
  attrs : Val

/-- The role-abilities cache: role id → raw rules. -/
abbrev RoleAbilities : Type := List (Nat × List CaslRule)

/-- Lookup of a role's raw rules in the cache. -/
def lookupRole (cache : RoleAbilities) (rid : Nat) : Option (List CaslRule) :=
  match cache.find? (fun p => p.1 == rid) with
  | some p => some p.2
  | none => none

/-- Per-user resolution of one raw rule's conditions. -/
def resolveRule (user : Val) (r : CaslRule) : CaslRule :=
  { r with conditions :=
      match r.conditions with
      | some c => resolveConditions (some c) user
      | none => none }

/-- `defineAbilityForUser`: `undefined` when the user has no role or the
role is not in the cache; otherwise the role's raw rules with conditions
resolved for this user. -/
def defineAbilityForUser (cache : RoleAbilities) (user : Account) :
    Option (List CaslRule) :=
  match user.role with
  | none => none
  | some role =>
    match lookupRole cache role.id with
    | none => none
    | some rawRules => some (rawRules.map (resolveRule user.attrs))

/-- `checkUserAbility`: type-level permission check; `false` when no
ability could be compiled. -/
def checkUserAbility (cache : RoleAbilities) (user : Account) (a : String)
    (s : String) (f : Option String) : Bool :=
  match defineAbilityForUser cache user with
  | none => false
  | some rules => canSubjectType rules a s f

/-- `checkUserAbilityWithConditions`: condition-aware permission check
against a concrete resource instance; `false` when no ability could be
compiled. -/
def checkUserAbilityWithConditions (cache : RoleAbilities) (user : Account)
    (a : String) (res : ResourceInstance) (f : Option String) : Bool :=
  match defineAbilityForUser cache user with
  | none => false
  | some rules => canInstance rules a res f

/-! ## Permission guard (has-permissions.guard.ts)

`canActivate` allows public routes unconditionally, rejects requests
without a resolved user, allows handlers without permission metadata,
infers the subject from the controller path when unset, and otherwise
delegates to the account service's permission check (embedded as an
oracle argument so its behavior is arbitrary). -/

/-- The metadata attached by the permissions decorator. -/
structure PermissionMetadata where
  action : String
  subject : Option String
  field : Option String
  checkResource : Bool

/-- The distinct rejections the guard can raise. -/
inductive GuardError where
  | notAuthenticated : GuardError
  | subjectNotDefined : GuardError
  | resourceIdRequired : GuardError
  | noBasePermission : String → String → GuardError
  | notPermitted : String → String → Option String → GuardError
deriving DecidableEq

/-- The inputs the guard reads from the execution context. -/
structure GuardRequest where
  isPublic : Bool
  user : Option Account
  permissions : Option PermissionMetadata
  controllerPath : Option String
  resourceIdParam : Option String

/-- `HasPermissionsGuard.canActivate`, with the account service's
`checkPermission(userId, action, subject, field)` supplied as an oracle. -/
def canActivate (checkPermission : Nat → String → String → Option String → Bool)
    (req : GuardRequest) : Except GuardError Bool :=
  if req.isPublic then .ok true
  else
    match req.user with
    | none => .error .notAuthenticated
    | some user =>
      match req.permissions with
      | none => .ok true
      | some pm =>
        let subj :=
          match pm.subject with
          | some s => some s
          | none => req.controllerPath
        match subj with
        | none => .error .subjectNotDefined
        | some subject =>
          if pm.checkResource then
            match req.resourceIdParam with
            | none => .error .resourceIdRequired
            | some _ =>
              if checkPermission user.id pm.action subject pm.field then .ok true
              else .error (.noBasePermission pm.action subject)
          else
            if checkPermission user.id pm.action subject pm.field then .ok true
            else .error (.notPermitted pm.action subject pm.field)

/-! ## Role service and audit log (role.service.ts, audit-log.service.ts)

The mutation entry points are embedded as explicit state transformers over
a database state; the success of every persistence call is supplied by a
`RepoBehavior` oracle. Each method's try/catch wraps any raised error into
its domain exception while keeping the state changes already persisted. -/

/-- A persisted permission row. -/
structure Perm where
  id : Nat
  action : List String
  subject : List String
  fields : Option (List String)
  conditions : Option Val
  inverted : Bool

/-- The before/after snapshot shape written by the audit convenience
constructors ({action, subject, fields, conditions}). -/
structure PermSnapshot where
  action : List String
  subject : List String
  fields : Option (List String)
  conditions : Option Val

/-- The snapshot of a permission row. -/
def Perm.snapshot (p : Perm) : PermSnapshot :=
  ⟨p.action, p.subject, p.fields, p.conditions⟩

/-- The closed enumeration of audit action kinds used here. -/
inductive AuditAction where
  | grantPermission : AuditAction
  | revokePermission : AuditAction
deriving DecidableEq

/-- An audit log entry. -/
structure AuditEntry where
  actorId : Nat
  auditAction : AuditAction
  entityType : String
  entityId : String
  changesBefore : Option PermSnapshot
  changesAfter : Option PermSnapshot
  ipAddress : Option String
  userAgent : Option String

/-- The persistent and cached state the services act on. -/
structure DbState where
  roles : List (Nat × List Perm)
  permsTable : List Perm
  audits : List AuditEntry
  cache : RoleAbilities
  nextPermId : Nat

/-- Which persistence calls fail during a run. -/
structure RepoBehavior where
  permSaveFails : Bool
  roleSaveFails : Bool
  permDeleteFails : Bool
  auditSaveFails : Bool

/-- The body of `logAction` up to its catch: create and save the audit
entry (the save may fail). -/
def logActionBody (b : RepoBehavior) (st : DbState) (e : AuditEntry) :
    Except String (AuditEntry × DbState) :=
  if b.auditSaveFails then .error "audit persist failed"
  else .ok (e, { st with audits := st.audits ++ [e] })

/-- `AuditLogService.logAction`: a failure to persist is caught and yields
a null result, leaving the rest of the state untouched; nothing is ever
thrown outward. -/
def logAction (b : RepoBehavior) (st : DbState) (e : AuditEntry) :
    Option AuditEntry × DbState :=
  match logActionBody b st e with
  | .ok (saved, st2) => (some saved, st2)
  | .error _ => (none, st)

/-- The entry built by `logPermissionGrant` (entity id is the role id, the
snapshot goes into `changes.after`). -/
def grantEntry (actorId roleId : Nat) (p : Perm) (ip ua : Option String) :
    AuditEntry :=
  ⟨actorId, .grantPermission, "Permission", toString roleId, none,
    some p.snapshot, ip, ua⟩

/-- The entry built by `logPermissionRevoke` (entity id is the permission
id, the snapshot goes into `changes.before`). -/
def revokeEntry (actorId roleId permId : Nat) (p : Perm)
    (ip ua : Option String) : AuditEntry :=
  ⟨actorId, .revokePermission, "Permission", toString permId,
    some p.snapshot, none, ip, ua⟩

/-- The domain errors the role service wraps failures into. -/
inductive RoleServiceError where
  | addPermissionException : Nat → RoleServiceError
  | removePermissionException : Nat → Nat → RoleServiceError
deriving DecidableEq

/-- Lookup of a role's permission list. -/
def lookupRolePerms (roles : List (Nat × List Perm)) (rid : Nat) :
    Option (List Perm) :=
  match roles.find? (fun p => p.1 == rid) with
  | some p => some p.2
  | none => none

/-- Replace one role's permission list. -/
def updateRolePerms (roles : List (Nat × List Perm)) (rid : Nat)
    (ps : List Perm) : List (Nat × List Perm) :=
  roles.map (fun p => if p.1 == rid then (p.1, ps) else p)

/-- The caller-supplied part of a new permission row. -/
structure PermInput where
  action : List String
  subject : List String
  fields : Option (List String)
  conditions : Option Val
  inverted : Bool

/-- `RoleService.addPermission`: find the role, save the new permission
row, append it to the role's permissions and save the role, then (only
when an actor is supplied) write one grant audit entry. Any raised error
is wrapped into the domain exception; state changes persisted before the
failure remain. The role-abilities cache is never touched. -/
def addPermission (b : RepoBehavior) (st : DbState) (roleId : Nat)
    (input : PermInput) (actor : Option Nat) (ip ua : Option String) :
    Except RoleServiceError (List Perm) × DbState :=
  match lookupRolePerms st.roles roleId with
  | none => (.error (.addPermissionException roleId), st)
  | some rolePerms =>
    if b.permSaveFails then (.error (.addPermissionException roleId), st)
    else
      let newPerm : Perm :=
        ⟨st.nextPermId, input.action, input.subject, input.fields,
          input.conditions, input.inverted⟩
      let st1 := { st with permsTable := st.permsTable ++ [newPerm],
                           nextPermId := st.nextPermId + 1 }
      let newRolePerms := rolePerms ++ [newPerm]
      if b.roleSaveFails then (.error (.addPermissionException roleId), st1)
      else
        let st2 := { st1 with roles := updateRolePerms st1.roles roleId newRolePerms }
        match actor with
        | none => (.ok newRolePerms, st2)
        | some actorId =>
          (.ok newRolePerms,
            (logAction b st2 (grantEntry actorId roleId newPerm ip ua)).2)

/-- `RoleService.removePermission`: find the role and the permission to
remove, write the revoke audit entry (only when an actor is supplied, and
BEFORE any mutation), then save the role without the permission and delete
the permission row. Any raised error is wrapped into the domain exception;
state changes persisted before the failure - including the audit entry -
remain. The role-abilities cache is never touched. -/
def removePermission (b : RepoBehavior) (st : DbState) (roleId : Nat)
    (permissionId : Nat) (actor : Option Nat) (ip ua : Option String) :
    Except RoleServiceError Unit × DbState :=
  match lookupRolePerms st.roles roleId with
  | none => (.error (.removePermissionException roleId permissionId), st)
  | some rolePerms =>
    match rolePerms.find? (fun p => p.id == permissionId) with
    | none => (.error (.removePermissionException roleId permissionId), st)
    | some permToRemove =>
      let st1 :=
        match actor with
        | none => st
        | some actorId =>
          (logAction b st (revokeEntry actorId roleId permissionId permToRemove ip ua)).2
      if b.roleSaveFails then
        (.error (.removePermissionException roleId permissionId), st1)
      else
        let keptPerms := rolePerms.filter (fun p => !(p.id == permissionId))
        let st2 := { st1 with roles := updateRolePerms st1.roles roleId keptPerms }
        if b.permDeleteFails then
          (.error (.removePermissionException roleId permissionId), st2)
        else
          (.ok (), { st2 with permsTable :=
            st2.permsTable.filter (fun p => !(p.id == permissionId)) })

/-! ## Resource owner guard (ResourceOwnerGuard.canActivate)

The guard reads the `resourceOwner` metadata attached by the
CheckResourceOwner decorator (absent metadata means no ownership check),
requires a resolved user, fetches the resource via the metadata's getter
(embedded as the `resource` argument), walks the configured owner field
path on it with optional chaining, throws when the owner value is falsy,
compares it against the user's id in raw, object-id and string form, and
otherwise - when admin override is permitted (the default) - compiles the
user's ability and checks the HTTP-verb-derived action directly against
the resource instance. -/

/-- JS truthiness on embedded values: `undefined`, `null`, `false`, `0`
and the empty string are falsy. -/
def Val.isFalsy : Val → Bool
  | .undefV => true
  | .nullV => true
  | .boolV b => !b
  | .numV n => n == 0
  | .strV s => s == ""
  | _ => false

/-- One optional-chaining hop `current?.[prop]`: null/undefined yield
`undefined`, an object yields its field, any other value yields
`undefined`. -/
def optChain (cur : Val) (p : String) : Val :=
  match cur with
  | .nullV => .undefV
  | .undefV => .undefV
  | .obj kvs => lookupAttr kvs p
  | _ => .undefV

/-- `getNestedProperty`: reduce the dot-split path over the object with
optional chaining. -/
def getNestedProperty (obj : Val) (path : String) : Val :=
  ((splitOnDot path.data).map String.mk).foldl optChain obj

/-- The guard's owner comparison
`ownerId === user.id || ownerId?.id === user.id || ownerId === user.id?.toString()`:
the raw owner value, an owner object's `id` field, or the string form of
the user's id. -/
def isOwnerCheck (ownerId : Val) (user : Account) : Bool :=
  Val.beq ownerId (.numV (user.id : Int)) ||
    (match ownerId with
     | .obj kvs => Val.beq (lookupAttr kvs "id") (.numV (user.id : Int))
     | _ => false) ||
    Val.beq ownerId (.strV (toString user.id))

/-- Uppercase one ASCII character, as `toUpperCase()` on the method
names involved. -/
def upcaseChar (c : Char) : Char :=
  if 'a' ≤ c ∧ c ≤ 'z' then Char.ofNat (c.toNat - 32) else c

/-- `mapMethodToAction`: GET→read, POST→create, PATCH/PUT→update,
DELETE→delete, anything else defaults to read. -/
def mapMethodToAction (method : String) : String :=
  let m := String.mk (method.data.map upcaseChar)
  if m == "GET" then "read"
  else if m == "POST" then "create"
  else if m == "PATCH" then "update"
  else if m == "PUT" then "update"
  else if m == "DELETE" then "delete"
  else "read"

/-- The metadata attached by the CheckResourceOwner decorator; the
resource getter itself is a collaborator whose result is passed to the
guard separately, and `tenantField` is destructured but never used. -/
structure ResourceOwnerMetadata where
  ownerField : Option String
  tenantField : Option String
  allowAdminOverride : Option Bool

/-- The distinct rejections the resource owner guard can raise (each a
ForbiddenException with its own message; the two `ownResourcesOnly` sites
share one message in the source). -/
inductive ResourceOwnerError where
  | notAuthenticated : ResourceOwnerError
  | resourceNotFound : ResourceOwnerError
  | cannotDetermineOwnership : ResourceOwnerError
  | ownResourcesOnly : ResourceOwnerError
  | noOverridePermission : ResourceOwnerError
deriving DecidableEq

/-- `ResourceOwnerGuard.canActivate`: no metadata allows; no user rejects
as unauthenticated; a missing resource rejects as not found; a falsy
owner value rejects as undeterminable ownership before any override is
attempted; an owner is allowed; otherwise, when admin override is
permitted (the default), the user's compiled ability is checked for the
HTTP-verb-derived action directly against the resource instance, allowing
on a grant and rejecting as lacking override permission on a denial (a
user with no compiled ability, or no permitted override, is rejected with
the own-resources-only error). -/
def resourceOwnerCanActivate (cache : RoleAbilities)
    (metadata : Option ResourceOwnerMetadata) (user : Option Account)
    (resource : Option ResourceInstance) (method : String) :
    Except ResourceOwnerError Bool :=
  match metadata with
  | none => .ok true
  | some md =>
    match user with
    | none => .error .notAuthenticated
    | some u =>
      let ownerField := md.ownerField.getD "ownerId"
      let allowAdminOverride := md.allowAdminOverride.getD true
      match resource with
      | none => .error .resourceNotFound
      | some res =>
        let ownerId := getNestedProperty (Val.obj res.attrs) ownerField
        if ownerId.isFalsy then .error .cannotDetermineOwnership
        else if isOwnerCheck ownerId u then .ok true
        else if allowAdminOverride then
          match defineAbilityForUser cache u with
          | none => .error .ownResourcesOnly
          | some rules =>
            if canInstance rules (mapMethodToAction method) res none then .ok true
            else .error .noOverridePermission
        else .error .ownResourcesOnly

/-! ## Theorems -/

/-- Helper: deep equality against `undefined` fails for every other
value. -/
theorem beq_undef_of_ne {v : Val} (h : v ≠ Val.undefV) :
    Val.beq v Val.undefV = false := by
  cases v with
  | undefV => exact absurd rfl h
  | nullV => rfl
  | boolV b => rfl
  | numV n => rfl
  | strV s => rfl
  | arr xs => rfl
  | obj kvs => rfl
  | getterExn m => rfl

/-- C4: a user with no assigned role compiles to no ability, and every
permission check - type-level or condition-aware, for any action, subject,
resource and field - returns false. -/
theorem c4_no_role_denies_all (cache : RoleAbilities) (user : Account)
    (a s : String) (f : Option String) (res : ResourceInstance)
    (h : user.role = none) :
    defineAbilityForUser cache user = none ∧
      checkUserAbility cache user a s f = false ∧
      checkUserAbilityWithConditions cache user a res f = false := by
  have hd : defineAbilityForUser cache user = none := by
    unfold defineAbilityForUser
    rw [h]
  exact ⟨hd, by unfold checkUserAbility; rw [hd],
    by unfold checkUserAbilityWithConditions; rw [hd]⟩

/-- Witness for C4 at a concrete role-less user. -/
theorem c4_no_role_denies_all_witness :
    (Account.mk 1 none (Val.obj [])).role = none ∧
      (defineAbilityForUser [] (Account.mk 1 none (Val.obj [])) = none ∧
        checkUserAbility [] (Account.mk 1 none (Val.obj [])) "read" "Course" none = false ∧
        checkUserAbilityWithConditions [] (Account.mk 1 none (Val.obj []))
          "read" ⟨"Course", []⟩ none = false) :=
  ⟨rfl, c4_no_role_denies_all [] (Account.mk 1 none (Val.obj []))
    "read" "Course" none ⟨"Course", []⟩ rfl⟩

/-- C5: on a non-public route with an authenticated user and no permission
metadata on the handler, the guard allows the request, and it does so for
every possible behavior of the underlying permission check - the oracle is
never consulted. -/
theorem c5_guard_allows_without_metadata
    (cp : Nat → String → String → Option String → Bool) (req : GuardRequest)
    (u : Account) (hpub : req.isPublic = false) (huser : req.user = some u)
    (hmeta : req.permissions = none) :
    canActivate cp req = .ok true := by
  unfold canActivate
  rw [hpub, huser, hmeta]
  simp

/-- Witness for C5 at a concrete request. -/
theorem c5_guard_allows_without_metadata_witness :
    (GuardRequest.mk false (some (Account.mk 1 none (Val.obj []))) none none none).isPublic = false ∧
      (GuardRequest.mk false (some (Account.mk 1 none (Val.obj []))) none none none).user
        = some (Account.mk 1 none (Val.obj [])) ∧
      canActivate (fun _ _ _ _ => false)
        (GuardRequest.mk false (some (Account.mk 1 none (Val.obj []))) none none none) = .ok true :=
  ⟨rfl, rfl, c5_guard_allows_without_metadata (fun _ _ _ _ => false)
    (GuardRequest.mk false (some (Account.mk 1 none (Val.obj []))) none none none)
    (Account.mk 1 none (Val.obj [])) rfl rfl rfl⟩

/-- C8: on a non-public route with no resolved user the guard rejects with
the unauthenticated error, a rejection distinct from both unauthorized
rejections, and it does so for every possible behavior of the permission
check oracle - no permission logic runs before the rejection. -/
theorem c8_guard_rejects_unauthenticated
    (cp : Nat → String → String → Option String → Bool) (req : GuardRequest)
    (hpub : req.isPublic = false) (huser : req.user = none) :
    canActivate cp req = .error .notAuthenticated ∧
      (∀ a s f, GuardError.notAuthenticated ≠ GuardError.notPermitted a s f) ∧
      (∀ a s, GuardError.notAuthenticated ≠ GuardError.noBasePermission a s) := by
  refine ⟨?_, fun a s f h => GuardError.noConfusion h,
    fun a s h => GuardError.noConfusion h⟩
  unfold canActivate
  rw [hpub, huser]
  simp

/-- Witness for C8 at a concrete request. -/
theorem c8_guard_rejects_unauthenticated_witness :
    (GuardRequest.mk false none
        (some (PermissionMetadata.mk "read" (some "Course") none false))
        none none).isPublic = false ∧
      canActivate (fun _ _ _ _ => true)
        (GuardRequest.mk false none
          (some (PermissionMetadata.mk "read" (some "Course") none false))
          none none) = .error .notAuthenticated :=
  ⟨rfl, (c8_guard_rejects_unauthenticated (fun _ _ _ _ => true)
    (GuardRequest.mk false none
      (some (PermissionMetadata.mk "read" (some "Course") none false))
      none none) rfl rfl).1⟩

/-- C6: whenever the recursive resolution of a condition tree raises, the
resolver returns the original unresolved conditions unchanged and
propagates no exception (its result type carries none). -/
theorem c6_resolver_error_returns_original (c u : Val) (e : String)
    (h : resolveObjectE c u = .error e) :
    resolveConditions (some c) u = some c := by
  show (match resolveObjectE c u with
        | .ok v => some v
        | .error _ => some c) = some c
  rw [h]

/-- Witness for C6: a condition object with a throwing getter makes the
resolution raise, and the resolver hands back the original object. -/
theorem c6_resolver_error_returns_original_witness :
    resolveObjectE (Val.obj [("x", Val.getterExn "boom")]) (Val.obj []) = .error "boom" ∧
      resolveConditions (some (Val.obj [("x", Val.getterExn "boom")])) (Val.obj [])
        = some (Val.obj [("x", Val.getterExn "boom")]) :=
  ⟨rfl, c6_resolver_error_returns_original
    (Val.obj [("x", Val.getterExn "boom")]) (Val.obj []) "boom" rfl⟩

/-- C7: a failure to persist an audit entry is caught inside the audit
record operation, which returns a null result and leaves the state as it
was instead of raising; consequently a permission mutation keeps
completing successfully under a forced audit-store failure. -/
theorem c7_audit_failure_caught (b : RepoBehavior) (st : DbState)
    (e : AuditEntry) (msg : String)
    (h : logActionBody b st e = .error msg) :
    logAction b st e = (none, st) ∧
      ∀ (st2 : DbState) (roleId : Nat) (input : PermInput) (actorId : Nat)
        (ip ua : Option String) (rolePerms : List Perm),
        b.permSaveFails = false → b.roleSaveFails = false →
        lookupRolePerms st2.roles roleId = some rolePerms →
        ∃ ps stFinal,
          addPermission b st2 roleId input (some actorId) ip ua = (.ok ps, stFinal) := by
  constructor
  · unfold logAction
    rw [h]
  · intro st2 roleId input actorId ip ua rolePerms hps hrs hlook
    unfold addPermission
    rw [hlook, hps, hrs]
    exact ⟨_, _, rfl⟩

/-- Witness for C7 with a concrete forced audit-store failure. -/
theorem c7_audit_failure_caught_witness :
    logActionBody (RepoBehavior.mk false false false true)
        (DbState.mk [(1, [])] [] [] [] 1)
        (grantEntry 9 1 (Perm.mk 1 ["read"] ["Course"] none none false) none none)
      = .error "audit persist failed" ∧
      logAction (RepoBehavior.mk false false false true)
        (DbState.mk [(1, [])] [] [] [] 1)
        (grantEntry 9 1 (Perm.mk 1 ["read"] ["Course"] none none false) none none)
      = (none, DbState.mk [(1, [])] [] [] [] 1) :=
  ⟨rfl, (c7_audit_failure_caught (RepoBehavior.mk false false false true)
    (DbState.mk [(1, [])] [] [] [] 1)
    (grantEntry 9 1 (Perm.mk 1 ["read"] ["Course"] none none false) none none)
    "audit persist failed" rfl).1⟩

/-- Helper: the walk of the single-segment path `companyId` on a user
object is the property access. -/
theorem walkPathE_companyId (kvs : List (String × Val)) (w : Val)
    (hw : getProp (Val.obj kvs) "companyId" = .ok w) :
    walkPathE ["companyId"] (Val.obj kvs) = .ok w := by
  simp only [walkPathE, hw]

/-- Helper: resolving the template condition on `companyId` substitutes
the value found by the property walk on the user object. -/
theorem resolveConditions_companyId (kvs : List (String × Val)) (w : Val)
    (hw : walkPathE ["companyId"] (Val.obj kvs) = .ok w) :
    resolveConditions (some (Val.obj [("companyId", Val.strV "${user.companyId}")])) (Val.obj kvs)
      = some (Val.obj [("companyId", w)]) := by
  have hstr : resolveObjectE (Val.strV "${user.companyId}") (Val.obj kvs)
      = walkPathE ["companyId"] (Val.obj kvs) := rfl
  have hfields : resolveFieldsE [("companyId", Val.strV "${user.companyId}")] (Val.obj kvs)
      = .ok [("companyId", w)] := by
    simp only [resolveFieldsE, hstr, hw]
  have hobj : resolveObjectE (Val.obj [("companyId", Val.strV "${user.companyId}")]) (Val.obj kvs)
      = .ok (Val.obj [("companyId", w)]) := by
    simp only [resolveObjectE, hfields]
  simp only [resolveConditions, hobj]

/-- C2: resolving `\x7bcompanyId: "${user.companyId}"\x7d` against a user whose
companyId attribute is 42 yields the concrete condition 42; against a user
lacking companyId it yields the condition `undefined`; and with that
unresolved condition a grant rule never matches an instance carrying a
concrete (non-undefined) companyId, so the condition-aware check returns
false - an unresolved template is not a wildcard. -/
theorem c2_condition_round_trip (kvs attrs : List (String × Val))
    (a s : String) (rid uid : Nat) (v : Val) :
    (kvs.find? (fun p => p.1 == "companyId") = some ("companyId", Val.numV 42) →
      resolveConditions (some (Val.obj [("companyId", Val.strV "${user.companyId}")]))
        (Val.obj kvs) = some (Val.obj [("companyId", Val.numV 42)])) ∧
    (kvs.find? (fun p => p.1 == "companyId") = none →
      resolveConditions (some (Val.obj [("companyId", Val.strV "${user.companyId}")]))
        (Val.obj kvs) = some (Val.obj [("companyId", Val.undefV)])) ∧
    (kvs.find? (fun p => p.1 == "companyId") = none →
      lookupAttr attrs "companyId" = v → v ≠ Val.undefV →
      checkUserAbilityWithConditions
        [(rid, [CaslRule.mk [a] [s] none
          (some (Val.obj [("companyId", Val.strV "${user.companyId}")])) false none])]
        (Account.mk uid (some (RoleRef.mk rid)) (Val.obj kvs)) a
        (ResourceInstance.mk s attrs) none = false) := by
  refine ⟨?_, ?_, ?_⟩
  · intro hfind
    have hget : getProp (Val.obj kvs) "companyId" = .ok (Val.numV 42) := by
      simp only [getProp, hfind]
    exact resolveConditions_companyId kvs (Val.numV 42)
      (walkPathE_companyId kvs (Val.numV 42) hget)
  · intro hfind
    have hget : getProp (Val.obj kvs) "companyId" = .ok Val.undefV := by
      simp only [getProp, hfind]
    exact resolveConditions_companyId kvs Val.undefV
      (walkPathE_companyId kvs Val.undefV hget)
  · intro hfind hattr hne
    have hget : getProp (Val.obj kvs) "companyId" = .ok Val.undefV := by
      simp only [getProp, hfind]
    have hres : resolveConditions
        (some (Val.obj [("companyId", Val.strV "${user.companyId}")])) (Val.obj kvs)
        = some (Val.obj [("companyId", Val.undefV)]) :=
      resolveConditions_companyId kvs Val.undefV
        (walkPathE_companyId kvs Val.undefV hget)
    have hcond : condSatisfied (Val.obj [("companyId", Val.undefV)]) attrs = false := by
      simp only [condSatisfied, List.all_cons, List.all_nil, hattr,
        Bool.and_true, beq_undef_of_ne hne]
    have hab : defineAbilityForUser
        [(rid, [CaslRule.mk [a] [s] none
          (some (Val.obj [("companyId", Val.strV "${user.companyId}")])) false none])]
        (Account.mk uid (some (RoleRef.mk rid)) (Val.obj kvs))
        = some [CaslRule.mk [a] [s] none
            (some (Val.obj [("companyId", Val.undefV)])) false none] := by
      simp only [defineAbilityForUser, lookupRole, List.find?_cons_of_pos,
        beq_self_eq_true, List.map, resolveRule, hres]
    have hmatch : ruleMatchesInstance
        (CaslRule.mk [a] [s] none (some (Val.obj [("companyId", Val.undefV)])) false none)
        a (ResourceInstance.mk s attrs) none = false := by
      simp only [ruleMatchesInstance, hcond, Bool.and_false]
    simp only [checkUserAbilityWithConditions, hab, canInstance,
      List.reverse_cons, List.reverse_nil, List.nil_append,
      List.find?_cons_of_neg, hmatch, List.find?_nil]
    simp [hmatch]

/-- Witness for C2: a user with companyId 42, a user lacking companyId,
and a denial against an instance whose companyId is 7. -/
theorem c2_condition_round_trip_witness :
    ([("companyId", Val.numV 42)].find? (fun p => p.1 == "companyId")
        = some ("companyId", Val.numV 42)) ∧
      resolveConditions (some (Val.obj [("companyId", Val.strV "${user.companyId}")]))
        (Val.obj [("companyId", Val.numV 42)])
        = some (Val.obj [("companyId", Val.numV 42)]) ∧
      resolveConditions (some (Val.obj [("companyId", Val.strV "${user.companyId}")]))
        (Val.obj []) = some (Val.obj [("companyId", Val.undefV)]) ∧
      checkUserAbilityWithConditions
        [(1, [CaslRule.mk ["read"] ["Course"] none
          (some (Val.obj [("companyId", Val.strV "${user.companyId}")])) false none])]
        (Account.mk 5 (some (RoleRef.mk 1)) (Val.obj [])) "read"
        (ResourceInstance.mk "Course" [("companyId", Val.numV 7)]) none = false :=
  ⟨rfl,
    (c2_condition_round_trip [("companyId", Val.numV 42)] [] "x" "y" 1 5 Val.undefV).1 rfl,
    (c2_condition_round_trip [] [] "x" "y" 1 5 Val.undefV).2.1 rfl,
    (c2_condition_round_trip [] [("companyId", Val.numV 7)] "read" "Course" 1 5
      (Val.numV 7)).2.2 rfl rfl (fun h => Val.noConfusion h)⟩

/-- Helper: `find?` over an append whose first part finds nothing. -/
theorem find?_append_of_none {α : Type} {p : α → Bool} {l₁ l₂ : List α}
    (h : l₁.find? p = none) : (l₁ ++ l₂).find? p = l₂.find? p := by
  rw [List.find?_append, h, Option.none_or]

/-- C1 counterexample: with an inverted `read Course` rule declared first
and an unconditional grant for the same tuple declared after it, the
inverted rule matches the instance, yet `can('read', course)` is true -
the later grant overrides the earlier forbid, so a matching inverted rule
does not force a false outcome. -/
theorem c1_counterexample :
    ruleMatchesInstance
      (CaslRule.mk ["read"] ["Course"] none none true (some "forbidden"))
      "read" (ResourceInstance.mk "Course" []) none = true ∧
    checkUserAbilityWithConditions
      [(1, [CaslRule.mk ["read"] ["Course"] none none true (some "forbidden"),
            CaslRule.mk ["read"] ["Course"] none none false none])]
      (Account.mk 5 (some (RoleRef.mk 1)) (Val.obj [])) "read"
      (ResourceInstance.mk "Course" []) none = true :=
  ⟨rfl, rfl⟩

/-- C1 amended: evaluation is last-match-wins, so a matching inverted rule
forbids the tuple exactly when no later rule in the declaration list also
matches it: whenever the compiled ability splits as earlier rules, a
matching inverted rule, and later rules none of which match the queried
tuple, `can()` returns false. In particular an inverted rule declared
after a grant (as in the spec's archived-course example) yields false, but
a grant declared after a matching inverted rule yields true. -/
theorem c1_forbid_precedence_amended (cache : RoleAbilities) (user : Account)
    (a : String) (res : ResourceInstance) (f : Option String)
    (l₁ l₂ : List CaslRule) (inv : CaslRule)
    (hab : defineAbilityForUser cache user = some (l₁ ++ inv :: l₂))
    (hinv : inv.inverted = true)
    (hmatch : ruleMatchesInstance inv a res f = true)
    (hlater : ∀ r ∈ l₂, ruleMatchesInstance r a res f = false) :
    checkUserAbilityWithConditions cache user a res f = false := by
  have hnone : l₂.reverse.find? (fun r => ruleMatchesInstance r a res f) = none := by
    rw [List.find?_eq_none]
    intro x hx
    simp [hlater x (List.mem_reverse.mp hx)]
  have hrev : (l₁ ++ inv :: l₂).reverse = l₂.reverse ++ inv :: l₁.reverse := by
    simp [List.reverse_append]
  simp only [checkUserAbilityWithConditions, hab, canInstance, hrev,
    find?_append_of_none hnone]
  have hfc : List.find? (fun r => ruleMatchesInstance r a res f) (inv :: l₁.reverse)
      = some inv := List.find?_cons_of_pos l₁.reverse hmatch
  rw [hfc]
  simp [hinv]

/-- Witness for C1 amended at the spec's own example: a grant on
`read Course` followed by an inverted rule conditioned on
`archived: true`, queried on an archived course instance. -/
theorem c1_forbid_precedence_amended_witness :
    defineAbilityForUser
        [(1, [CaslRule.mk ["read"] ["Course"] none none false none,
              CaslRule.mk ["read"] ["Course"] none
                (some (Val.obj [("archived", Val.boolV true)])) true none])]
        (Account.mk 5 (some (RoleRef.mk 1)) (Val.obj []))
      = some ([CaslRule.mk ["read"] ["Course"] none none false none] ++
          CaslRule.mk ["read"] ["Course"] none
            (some (Val.obj [("archived", Val.boolV true)])) true none :: []) ∧
    (CaslRule.mk ["read"] ["Course"] none
      (some (Val.obj [("archived", Val.boolV true)])) true none).inverted = true ∧
    ruleMatchesInstance
      (CaslRule.mk ["read"] ["Course"] none
        (some (Val.obj [("archived", Val.boolV true)])) true none)
      "read" (ResourceInstance.mk "Course" [("archived", Val.boolV true)]) none = true ∧
    checkUserAbilityWithConditions
      [(1, [CaslRule.mk ["read"] ["Course"] none none false none,
            CaslRule.mk ["read"] ["Course"] none
              (some (Val.obj [("archived", Val.boolV true)])) true none])]
      (Account.mk 5 (some (RoleRef.mk 1)) (Val.obj [])) "read"
      (ResourceInstance.mk "Course" [("archived", Val.boolV true)]) none = false :=
  ⟨rfl, rfl, rfl,
    c1_forbid_precedence_amended
      [(1, [CaslRule.mk ["read"] ["Course"] none none false none,
            CaslRule.mk ["read"] ["Course"] none
              (some (Val.obj [("archived", Val.boolV true)])) true none])]
      (Account.mk 5 (some (RoleRef.mk 1)) (Val.obj [])) "read"
      (ResourceInstance.mk "Course" [("archived", Val.boolV true)]) none
      [CaslRule.mk ["read"] ["Course"] none none false none] []
      (CaslRule.mk ["read"] ["Course"] none
        (some (Val.obj [("archived", Val.boolV true)])) true none)
      rfl rfl rfl (fun r hr => absurd hr (List.not_mem_nil r))⟩

/-- C9 counterexample: a resource whose owner field is absent makes the
owner value falsy; the guard then rejects with the undeterminable-
ownership error before attempting any override, so a non-owner whose role
grants `manage` on the resource's subject is NOT allowed there, contrary
to the claim. -/
theorem c9_counterexample :
    isOwnerCheck (getNestedProperty (Val.obj []) "ownerId")
      (Account.mk 5 (some (RoleRef.mk 1)) (Val.obj [])) = false ∧
    resourceOwnerCanActivate
      [(1, [CaslRule.mk ["manage"] ["Doc"] none none false none])]
      (some (ResourceOwnerMetadata.mk none none none))
      (some (Account.mk 5 (some (RoleRef.mk 1)) (Val.obj [])))
      (some (ResourceInstance.mk "Doc" [])) "DELETE"
      = .error .cannotDetermineOwnership ∧
    (Except.error ResourceOwnerError.cannotDetermineOwnership
      ≠ (Except.ok true : Except ResourceOwnerError Bool)) :=
  ⟨rfl, rfl, fun h => Except.noConfusion h⟩

/-- C9 amended: with admin override permitted (the default) and a resource
whose owner value resolves to a truthy value that fails all three owner
comparisons (raw, object-id and string form), a non-owner whose role
grants `manage` on the resource's subject is allowed for any request
method, while the same non-owner with only `read` granted, updating via
PATCH, is rejected as lacking override permission; when the owner value is
falsy the guard instead rejects with the undeterminable-ownership error
before any override is attempted. -/
theorem c9_ownership_admin_override_amended (cache cache2 : RoleAbilities)
    (user : Account) (res res2 : ResourceInstance) (rid : Nat)
    (md : ResourceOwnerMetadata) (method : String)
    (hrole : user.role = some (RoleRef.mk rid))
    (hof : md.ownerField = none) (hov : md.allowAdminOverride = none)
    (hfalsy : (getNestedProperty (Val.obj res.attrs) "ownerId").isFalsy = false)
    (hown : isOwnerCheck (getNestedProperty (Val.obj res.attrs) "ownerId") user
      = false) :
    (lookupRole cache rid
        = some [CaslRule.mk ["manage"] [res.subjectName] none none false none] →
      resourceOwnerCanActivate cache (some md) (some user) (some res) method
        = .ok true) ∧
    (lookupRole cache2 rid
        = some [CaslRule.mk ["read"] [res.subjectName] none none false none] →
      resourceOwnerCanActivate cache2 (some md) (some user) (some res) "PATCH"
        = .error .noOverridePermission) ∧
    ((getNestedProperty (Val.obj res2.attrs) "ownerId").isFalsy = true →
      resourceOwnerCanActivate cache (some md) (some user) (some res2) method
        = .error .cannotDetermineOwnership) := by
  refine ⟨?_, ?_, ?_⟩
  · intro hlook
    have hab : defineAbilityForUser cache user
        = some [CaslRule.mk ["manage"] [res.subjectName] none none false none] := by
      simp only [defineAbilityForUser, hrole, hlook, List.map_cons, List.map_nil,
        resolveRule]
    have hcan : canInstance
        [CaslRule.mk ["manage"] [res.subjectName] none none false none]
        (mapMethodToAction method) res none = true := by
      simp [canInstance, ruleMatchesInstance, matchesAction, matchesSubjectName,
        matchesFieldQuery, List.contains_cons]
    simp only [resourceOwnerCanActivate, hof, hov, Option.getD_none, hfalsy,
      Bool.false_eq_true, if_false, hown, if_true, hab, hcan]
  · intro hlook
    have hab : defineAbilityForUser cache2 user
        = some [CaslRule.mk ["read"] [res.subjectName] none none false none] := by
      simp only [defineAbilityForUser, hrole, hlook, List.map_cons, List.map_nil,
        resolveRule]
    have hm : mapMethodToAction "PATCH" = "update" := rfl
    have hcan : canInstance
        [CaslRule.mk ["read"] [res.subjectName] none none false none]
        (mapMethodToAction "PATCH") res none = false := by
      simp [canInstance, ruleMatchesInstance, matchesAction, List.contains_cons, hm]
    simp only [resourceOwnerCanActivate, hof, hov, Option.getD_none, hfalsy,
      Bool.false_eq_true, if_false, hown, if_true, hab, hcan]
  · intro hfalsy2
    simp only [resourceOwnerCanActivate, hof, hov, Option.getD_none, hfalsy2,
      if_true]

/-- Witness for C9 amended: user 5 against a resource owned by 99, with a
`manage Doc` role deleting, a `read Doc` role updating, and a resource
without an owner field triggering the undeterminable-ownership
rejection. -/
theorem c9_ownership_admin_override_amended_witness :
    (Account.mk 5 (some (RoleRef.mk 1)) (Val.obj [])).role
      = some (RoleRef.mk 1) ∧
    (getNestedProperty (Val.obj [("ownerId", Val.numV 99)]) "ownerId").isFalsy
      = false ∧
    isOwnerCheck (getNestedProperty (Val.obj [("ownerId", Val.numV 99)]) "ownerId")
      (Account.mk 5 (some (RoleRef.mk 1)) (Val.obj [])) = false ∧
    resourceOwnerCanActivate
      [(1, [CaslRule.mk ["manage"] ["Doc"] none none false none])]
      (some (ResourceOwnerMetadata.mk none none none))
      (some (Account.mk 5 (some (RoleRef.mk 1)) (Val.obj [])))
      (some (ResourceInstance.mk "Doc" [("ownerId", Val.numV 99)])) "DELETE"
      = .ok true ∧
    resourceOwnerCanActivate
      [(1, [CaslRule.mk ["read"] ["Doc"] none none false none])]
      (some (ResourceOwnerMetadata.mk none none none))
      (some (Account.mk 5 (some (RoleRef.mk 1)) (Val.obj [])))
      (some (ResourceInstance.mk "Doc" [("ownerId", Val.numV 99)])) "PATCH"
      = .error .noOverridePermission :=
  ⟨rfl, rfl, rfl,
    (c9_ownership_admin_override_amended
      [(1, [CaslRule.mk ["manage"] ["Doc"] none none false none])]
      [(1, [CaslRule.mk ["read"] ["Doc"] none none false none])]
      (Account.mk 5 (some (RoleRef.mk 1)) (Val.obj []))
      (ResourceInstance.mk "Doc" [("ownerId", Val.numV 99)])
      (ResourceInstance.mk "Doc" []) 1
      (ResourceOwnerMetadata.mk none none none) "DELETE"
      rfl rfl rfl rfl rfl).1 rfl,
    ((c9_ownership_admin_override_amended
      [(1, [CaslRule.mk ["manage"] ["Doc"] none none false none])]
      [(1, [CaslRule.mk ["read"] ["Doc"] none none false none])]
      (Account.mk 5 (some (RoleRef.mk 1)) (Val.obj []))
      (ResourceInstance.mk "Doc" [("ownerId", Val.numV 99)])
      (ResourceInstance.mk "Doc" []) 1
      (ResourceOwnerMetadata.mk none none none) "DELETE"
      rfl rfl rfl rfl rfl).2.1) rfl⟩

/-- C3 counterexample: a fully successful `addPermission` call without an
actor produces no audit entry at all, and the role-abilities cache entry
for the role is left exactly as it was (here: a stale entry that does not
reflect the added rule) - so neither "exactly one audit entry per
successful call" nor "cache invalidation as part of the operation" holds
as stated. -/
theorem c3_counterexample :
    (addPermission (RepoBehavior.mk false false false false)
        (DbState.mk [(1, [])] [] []
          [(1, [CaslRule.mk ["read"] ["Course"] none none false none])] 10)
        1 (PermInput.mk ["update"] ["Course"] none none false) none none none).1
      = .ok [Perm.mk 10 ["update"] ["Course"] none none false] ∧
    (addPermission (RepoBehavior.mk false false false false)
        (DbState.mk [(1, [])] [] []
          [(1, [CaslRule.mk ["read"] ["Course"] none none false none])] 10)
        1 (PermInput.mk ["update"] ["Course"] none none false) none none none).2.audits
      = [] ∧
    (addPermission (RepoBehavior.mk false false false false)
        (DbState.mk [(1, [])] [] []
          [(1, [CaslRule.mk ["read"] ["Course"] none none false none])] 10)
        1 (PermInput.mk ["update"] ["Course"] none none false) none none none).2.cache
      = [(1, [CaslRule.mk ["read"] ["Course"] none none false none])] :=
  ⟨rfl, rfl, rfl⟩

/-- C3 amended: every successful `addPermission`/`removePermission` call
that carries an actor and meets a reachable audit store appends exactly
one audit entry whose snapshot is consistent with the mutation (after =
the added rule for a grant, before = the removed rule for a revoke); the
operations themselves leave the role-abilities cache untouched (cache
invalidation is performed separately by the bulk management endpoints,
not by these operations). -/
theorem c3_audit_entry_and_untouched_cache (b : RepoBehavior) (st : DbState)
    (roleId : Nat) (input : PermInput) (actorId : Nat) (ip ua : Option String)
    (rolePerms : List Perm)
    (hps : b.permSaveFails = false) (hrs : b.roleSaveFails = false)
    (has : b.auditSaveFails = false)
    (hlook : lookupRolePerms st.roles roleId = some rolePerms) :
    ((addPermission b st roleId input (some actorId) ip ua).1
        = .ok (rolePerms ++ [Perm.mk st.nextPermId input.action input.subject
            input.fields input.conditions input.inverted]) ∧
      (addPermission b st roleId input (some actorId) ip ua).2.audits
        = st.audits ++ [grantEntry actorId roleId
            (Perm.mk st.nextPermId input.action input.subject input.fields
              input.conditions input.inverted) ip ua] ∧
      (grantEntry actorId roleId
          (Perm.mk st.nextPermId input.action input.subject input.fields
            input.conditions input.inverted) ip ua).changesAfter
        = some (PermSnapshot.mk input.action input.subject input.fields
            input.conditions) ∧
      (grantEntry actorId roleId
          (Perm.mk st.nextPermId input.action input.subject input.fields
            input.conditions input.inverted) ip ua).changesBefore = none ∧
      (addPermission b st roleId input (some actorId) ip ua).2.cache = st.cache) ∧
    ∀ (permissionId : Nat) (p : Perm) (rp2 : List Perm) (st2 : DbState),
      b.permDeleteFails = false →
      lookupRolePerms st2.roles roleId = some rp2 →
      rp2.find? (fun q => q.id == permissionId) = some p →
      ((removePermission b st2 roleId permissionId (some actorId) ip ua).1
          = .ok () ∧
        (removePermission b st2 roleId permissionId (some actorId) ip ua).2.audits
          = st2.audits ++ [revokeEntry actorId roleId permissionId p ip ua] ∧
        (revokeEntry actorId roleId permissionId p ip ua).changesBefore
          = some p.snapshot ∧
        (revokeEntry actorId roleId permissionId p ip ua).changesAfter = none ∧
        (removePermission b st2 roleId permissionId (some actorId) ip ua).2.cache
          = st2.cache) := by
  constructor
  · refine ⟨?_, ?_, rfl, rfl, ?_⟩ <;>
      simp only [addPermission, hlook, hps, hrs, Bool.false_eq_true, if_false,
        logAction, logActionBody, has]
  · intro permissionId p rp2 st2 hpd hlook2 hfind2
    refine ⟨?_, ?_, rfl, rfl, ?_⟩ <;>
      simp only [removePermission, hlook2, hfind2, hrs, hpd, Bool.false_eq_true,
        if_false, logAction, logActionBody, has]

/-- Witness for C3 amended: a grant followed by a revoke of an existing
rule, both by actor 9 against role 1. -/
theorem c3_audit_entry_and_untouched_cache_witness :
    (RepoBehavior.mk false false false false).permSaveFails = false ∧
    lookupRolePerms ([(1, [])] : List (Nat × List Perm)) 1 = some [] ∧
    (addPermission (RepoBehavior.mk false false false false)
        (DbState.mk [(1, [])] [] [] [] 10) 1
        (PermInput.mk ["read"] ["Course"] none none false) (some 9) none none).2.audits
      = [] ++ [grantEntry 9 1 (Perm.mk 10 ["read"] ["Course"] none none false)
          none none] ∧
    (removePermission (RepoBehavior.mk false false false false)
        (DbState.mk [(1, [Perm.mk 2 ["read"] ["Course"] none none false])]
          [Perm.mk 2 ["read"] ["Course"] none none false] [] [] 10)
        1 2 (some 9) none none).2.audits
      = [] ++ [revokeEntry 9 1 2 (Perm.mk 2 ["read"] ["Course"] none none false)
          none none] :=
  ⟨rfl, rfl,
    ((c3_audit_entry_and_untouched_cache (RepoBehavior.mk false false false false)
      (DbState.mk [(1, [])] [] [] [] 10) 1
      (PermInput.mk ["read"] ["Course"] none none false) 9 none none []
      rfl rfl rfl rfl).1).2.1,
    (((c3_audit_entry_and_untouched_cache (RepoBehavior.mk false false false false)
      (DbState.mk [(1, [])] [] [] [] 10) 1
      (PermInput.mk ["read"] ["Course"] none none false) 9 none none []
      rfl rfl rfl rfl).2) 2 (Perm.mk 2 ["read"] ["Course"] none none false)
      [Perm.mk 2 ["read"] ["Course"] none none false]
      (DbState.mk [(1, [Perm.mk 2 ["read"] ["Course"] none none false])]
        [Perm.mk 2 ["read"] ["Course"] none none false] [] [] 10)
      rfl rfl rfl).2.1⟩

/-- C10: when an actor is supplied and the audit store is reachable,
`removePermission` persists its revoke audit entry before the role save
and permission delete; if the subsequent role save fails, the call raises
its domain error while the revoke audit entry remains persisted and the
role's permissions and the permission table are unchanged - the mutation
and its audit record are not atomic. -/
theorem c10_revoke_audit_survives_failed_mutation (b : RepoBehavior)
    (st : DbState) (roleId permissionId actorId : Nat) (ip ua : Option String)
    (rolePerms : List Perm) (p : Perm)
    (has : b.auditSaveFails = false) (hrs : b.roleSaveFails = true)
    (hlook : lookupRolePerms st.roles roleId = some rolePerms)
    (hfind : rolePerms.find? (fun q => q.id == permissionId) = some p) :
    (removePermission b st roleId permissionId (some actorId) ip ua).1
        = .error (.removePermissionException roleId permissionId) ∧
      (removePermission b st roleId permissionId (some actorId) ip ua).2.audits
        = st.audits ++ [revokeEntry actorId roleId permissionId p ip ua] ∧
      (removePermission b st roleId permissionId (some actorId) ip ua).2.roles
        = st.roles ∧
      (removePermission b st roleId permissionId (some actorId) ip ua).2.permsTable
        = st.permsTable := by
  refine ⟨?_, ?_, ?_, ?_⟩ <;>
    simp only [removePermission, hlook, hfind, hrs, if_true, logAction,
      logActionBody, has, Bool.false_eq_true, if_false]

/-- Witness for C10: role 1 holds permission 2; the role save is forced to
fail after the revoke audit entry is written. -/
theorem c10_revoke_audit_survives_failed_mutation_witness :
    (RepoBehavior.mk false true false false).roleSaveFails = true ∧
    (removePermission (RepoBehavior.mk false true false false)
        (DbState.mk [(1, [Perm.mk 2 ["read"] ["Course"] none none false])]
          [Perm.mk 2 ["read"] ["Course"] none none false] [] [] 10)
        1 2 (some 9) none none).1
      = .error (.removePermissionException 1 2) ∧
    (removePermission (RepoBehavior.mk false true false false)
        (DbState.mk [(1, [Perm.mk 2 ["read"] ["Course"] none none false])]
          [Perm.mk 2 ["read"] ["Course"] none none false] [] [] 10)
        1 2 (some 9) none none).2.audits
      = [] ++ [revokeEntry 9 1 2 (Perm.mk 2 ["read"] ["Course"] none none false)
          none none] :=
  ⟨rfl,
    (c10_revoke_audit_survives_failed_mutation
      (RepoBehavior.mk false true false false)
      (DbState.mk [(1, [Perm.mk 2 ["read"] ["Course"] none none false])]
        [Perm.mk 2 ["read"] ["Course"] none none false] [] [] 10)
      1 2 9 none none [Perm.mk 2 ["read"] ["Course"] none none false]
      (Perm.mk 2 ["read"] ["Course"] none none false) rfl rfl rfl rfl).1,
    (c10_revoke_audit_survives_failed_mutation
      (RepoBehavior.mk false true false false)
      (DbState.mk [(1, [Perm.mk 2 ["read"] ["Course"] none none false])]
        [Perm.mk 2 ["read"] ["Course"] none none false] [] [] 10)
      1 2 9 none none [Perm.mk 2 ["read"] ["Course"] none none false]
      (Perm.mk 2 ["read"] ["Course"] none none false) rfl rfl rfl rfl).2.1⟩

end SaasAcl
